import Mathlib

/-!
Verification development for the debt-data repository (World Bank IDS API
tutorial notebooks).  The embedding follows the notebooks:

* `src/api-guide/ids-api-guide-python-1.ipynb` — envelope parsing,
  `indicatorsJSON[0]["total"]`, the `id`/`name` loop over `indicatorsJSON[1]`,
  the nested `["source"][0]["concept"][0]["variable"]` traversal with
  `id`/`value` keys, and the first-match scan for an indicator code;
* `src/unnamed/part_000` (Python notebook, part 2) — `formatNum`
  (divide by 1e9 then Python-3 `round`) and the `Region` column cleanup
  (`str.replace` chain);
* `src/unnamed/part_001` (R notebook) — mirrors part 1.

JSON values are modelled by an inductive `Json`; Python `dict[key]` access
that would raise `KeyError` is modelled as a `ParseError` naming the field.
-/

namespace DebtData

/-- A JSON value as decoded by `response.json()` in the notebooks.  Numbers
in the paging metadata are integers, so `num` carries an `Int`. -/
inductive Json where
  | str : String → Json
  | num : Int → Json
  | arr : List Json → Json
  | obj : List (String × Json) → Json

/-- Field access on a JSON object (`d["k"]` in Python); `none` when the value
is not an object or the key is absent. -/
def Json.getField : Json → String → Option Json
  | .obj kvs, k => kvs.lookup k
  | _, _ => none

/-- Index access on a JSON array (`a[i]` in Python). -/
def Json.index : Json → Nat → Option Json
  | .arr xs, i => xs.get? i
  | _, _ => none

/-- The two response shapes used by the notebooks (spec §3/§4):
`FlatArray` for `sources`/`indicator` (`envelope[1]` is the record array),
`NestedVariable` for `sources/6/country` and `sources/6/counterpart-area`
(records at `source[0].concept[0].variable`). -/
inductive Schema where
  | FlatArray : Schema
  | NestedVariable : Schema
deriving DecidableEq

/-- A parse failure naming the missing (or non-string / non-array) field,
the design-level rendering of the `KeyError` the notebook code would raise. -/
structure ParseError where
  field : String
deriving DecidableEq

/-- One normalized catalog record: `{code, name, extra}` (spec §3); `extra`
keeps the remaining string fields of the raw entry (e.g. `sourceNote`). -/
structure CatalogRecord where
  code : String
  name : String
  extra : List (String × String)
deriving DecidableEq

/-- A catalog fetch result: the record sequence plus the server-reported
total (spec §3). -/
structure CatalogResult where
  records : List CatalogRecord
  total : Int
deriving DecidableEq

/-- A catalog request (spec §3).  `format` is always JSON in the notebooks,
so it is dropped. -/
structure CatalogRequest where
  baseUrl : String
  sourceId : Option Nat
  perPage : Nat
  resourcePath : String

/-- Request validity invariant from spec §3: `perPage > 0`, `resourcePath`
non-empty. -/
def CatalogRequest.valid (r : CatalogRequest) : Prop :=
  0 < r.perPage ∧ r.resourcePath ≠ ""

instance (r : CatalogRequest) : Decidable r.valid := by
  unfold CatalogRequest.valid; infer_instance

/-- Read a string field of a raw entry, failing with a `ParseError` naming
the field (the notebook's `i["id"]` etc. would raise `KeyError`). -/
def getStrField (j : Json) (k : String) : Except ParseError String :=
  match j.getField k with
  | some (.str s) => .ok s
  | _ => .error ⟨k⟩

/-- The string fields of a raw entry other than the id/name/value keys;
these populate `CatalogRecord.extra` (e.g. `sourceNote` read by cell 17 of
the Python part-1 notebook). -/
def Json.extras : Json → List (String × String)
  | .obj kvs =>
      kvs.filterMap fun kv =>
        match kv with
        | (k, .str v) =>
            if k = "id" ∨ k = "name" ∨ k = "value" then none else some (k, v)
        | _ => none
  | _ => []

/-- Parse one raw entry under the `FlatArray` schema: `i["id"]`, `i["name"]`
(cell 15 of the Python part-1 notebook); per spec §4.1 a `value` key may
stand in for `name`. -/
def parseEntryFlat (e : Json) : Except ParseError CatalogRecord :=
  match getStrField e "id" with
  | .error err => .error err
  | .ok code =>
      match e.getField "name" with
      | some (.str n) => .ok ⟨code, n, e.extras⟩
      | _ =>
          match e.getField "value" with
          | some (.str n) => .ok ⟨code, n, e.extras⟩
          | _ => .error ⟨"name"⟩

/-- Parse one raw entry under the `NestedVariable` schema:
`dlocations[i]["id"]`, `dlocations[i]["value"]` (cell 20 of the Python
part-1 notebook). -/
def parseEntryNested (e : Json) : Except ParseError CatalogRecord :=
  match getStrField e "id" with
  | .error err => .error err
  | .ok code =>
      match e.getField "value" with
      | some (.str n) => .ok ⟨code, n, e.extras⟩
      | _ => .error ⟨"value"⟩

/-- Entry parser for a schema. -/
def parseEntry : Schema → Json → Except ParseError CatalogRecord
  | .FlatArray => parseEntryFlat
  | .NestedVariable => parseEntryNested

/-- Parse every raw entry, stopping at the first failure with its error —
no partial record sequence is ever returned (spec §7). -/
def mapParse (p : Json → Except ParseError CatalogRecord) :
    List Json → Except ParseError (List CatalogRecord)
  | [] => .ok []
  | e :: es =>
      match p e with
      | .error err => .error err
      | .ok r =>
          match mapParse p es with
          | .error err => .error err
          | .ok rs => .ok (r :: rs)

/-- Locate the raw entry list in an envelope.  `FlatArray`: the second
envelope element (`indicatorsJSON[1]`, cell 15).  `NestedVariable`:
`["source"][0]["concept"][0]["variable"]` (cell 20; R notebook line 125). -/
def entriesOf (env : Json) : Schema → Except ParseError (List Json)
  | .FlatArray =>
      match env.index 1 with
      | some (.arr es) => .ok es
      | _ => .error ⟨"records"⟩
  | .NestedVariable =>
      match env.getField "source" with
      | some (.arr (s0 :: _)) =>
          match s0.getField "concept" with
          | some (.arr (c0 :: _)) =>
              match c0.getField "variable" with
              | some (.arr es) => .ok es
              | _ => .error ⟨"variable"⟩
          | _ => .error ⟨"concept"⟩
      | _ => .error ⟨"source"⟩

/-- `extractRecords` (spec §4.1): locate the raw entries for the schema and
map them to `CatalogRecord`s, surfacing the first `ParseError`. -/
def extractRecords (env : Json) (schema : Schema) :
    Except ParseError (List CatalogRecord) :=
  match entriesOf env schema with
  | .error err => .error err
  | .ok es => mapParse (parseEntry schema) es

/-- Read the server-reported total from an envelope:
`indicatorsJSON[0]["total"]` (cell 13) for the flat shape, the top-level
`total` for the nested shape. -/
def readTotal : Json → Except ParseError Int
  | .arr (meta :: _) =>
      match meta.getField "total" with
      | some (.num n) => .ok n
      | _ => .error ⟨"total"⟩
  | .obj kvs =>
      match (Json.obj kvs).getField "total" with
      | some (.num n) => .ok n
      | _ => .error ⟨"total"⟩
  | _ => .error ⟨"total"⟩

/-- Server-side fixture data for one catalog endpoint: the full raw entry
list and the shape it is served in.  Stands for the World Bank API data
behind one `resourcePath`. -/
structure Fixture where
  schema : Schema
  entries : List Json

/-- Modelled from the spec (§4.1, §6): the transport boundary.  The server
answers one GET with `per_page = n` by an envelope of the fixture's shape
holding the first `n` entries and reporting `total` as the full count; there
is no HTTP client in the notebooks beyond this single-request pattern. -/
def servePage (fx : Fixture) (perPage : Nat) : Json :=
  match fx.schema with
  | .FlatArray =>
      .arr [ .obj [("page", .num 1),
                   ("pages", .num (((fx.entries.length + perPage - 1) / perPage : Nat) : Int)),
                   ("per_page", .num (perPage : Int)),
                   ("total", .num (fx.entries.length : Int))],
             .arr (fx.entries.take perPage) ]
  | .NestedVariable =>
      .obj [("page", .num 1),
            ("pages", .num (((fx.entries.length + perPage - 1) / perPage : Nat) : Int)),
            ("per_page", .num (perPage : Int)),
            ("total", .num (fx.entries.length : Int)),
            ("source", .arr [ .obj [("concept",
              .arr [ .obj [("variable", .arr (fx.entries.take perPage))] ])] ])]

/-- Modelled from the spec (§4.1): `fetchTotalCount` issues a minimal
request (`perPage = 1`) and reads `pagingMetadata.total`; the notebooks read
`indicatorsJSON[0]["total"]` (cell 13). -/
def fetchTotalCount (fx : Fixture) : Except ParseError Int :=
  readTotal (servePage fx 1)

/-- Modelled from the spec (§4.1): `fetchAll` issues exactly one request
with the configured `perPage` and extracts the records — no multi-page loop
is ever performed, exactly as in the notebooks (one GET per catalog). -/
def fetchAll (req : CatalogRequest) (fx : Fixture) :
    Except ParseError CatalogResult :=
  match readTotal (servePage fx req.perPage) with
  | .error err => .error err
  | .ok t =>
      match extractRecords (servePage fx req.perPage) fx.schema with
      | .error err => .error err
      | .ok rs => .ok ⟨rs, t⟩

/-- Modelled from the spec (§4.1): `lookup` is a linear scan by exact,
case-sensitive code equality returning the first match; `none` is the
`NotFound` variant.  The notebooks scan `indicatorsJSON[1]` comparing
`dict_entity["id"] == indicator` (cell 17; R line 99). -/
def lookup (result : CatalogResult) (code : String) : Option CatalogRecord :=
  result.records.find? fun r => r.code == code

/-- Modelled from the spec (§4.1): `findMetadata` scans for the code and
reads one `extra` field of the matching record (the notebook prints
`dict_entity["sourceNote"]` for the first matching entry, cell 17).
Written as its own scan; the compositional characterization is proved. -/
def findMetadataIn : List CatalogRecord → String → String → Option String
  | [], _, _ => none
  | r :: rs, code, field =>
      if r.code = code then r.extra.lookup field
      else findMetadataIn rs code field

/-- `findMetadata` on a `CatalogResult` (spec §4.1). -/
def findMetadata (result : CatalogResult) (code field : String) :
    Option String :=
  findMetadataIn result.records code field

/-! Part-2 notebook (`src/unnamed/part_000`): `formatNum` and the `Region`
column cleanup. -/

/-- Nearest-integer rounding with ties to the even integer: Python 3's
built-in `round` on the exact value. -/
def roundHalfEven (q : ℚ) : ℤ :=
  if q - ⌊q⌋ < 1/2 then ⌊q⌋
  else if 1/2 < q - ⌊q⌋ then ⌊q⌋ + 1
  else if ⌊q⌋ % 2 = 0 then ⌊q⌋ else ⌊q⌋ + 1

/-- `formatNum` from `src/unnamed/part_000` lines 268-272: divide by
1 000 000 000 and apply Python 3 `round`; the division is taken over exact
rationals. -/
def formatNum (x : ℚ) : ℤ :=
  roundHalfEven (x / 1000000000)

/-- Whether `pat` is an initial segment of `s` (character-wise). -/
def beginsWith : List Char → List Char → Bool
  | [], _ => true
  | _ :: _, [] => false
  | p :: ps, c :: cs => p == c && beginsWith ps cs

/-- Left-to-right, non-overlapping replacement of `pat` by `rep`, the
semantics of Python `str.replace` (and of pandas `Series.str.replace` with a
literal pattern).  `fuel` bounds the scan; each step consumes at least one
character, so `fuel = s.length` completes the scan for non-empty `pat`. -/
def replaceGo (pat rep : List Char) : Nat → List Char → List Char
  | _, [] => []
  | 0, s => s
  | fuel + 1, c :: cs =>
      if beginsWith pat (c :: cs) then
        rep ++ replaceGo pat rep fuel (List.drop pat.length (c :: cs))
      else
        c :: replaceGo pat rep fuel cs

/-- Python `s.replace(pat, rep)` on strings (for non-empty `pat`). -/
def pyReplace (s pat rep : String) : String :=
  ⟨replaceGo pat.data rep.data s.data.length s.data⟩

/-- Whether `pat` occurs (contiguously) somewhere in `s`. -/
def occursIn (pat : List Char) : List Char → Bool
  | [] => beginsWith pat []
  | c :: cs => beginsWith pat (c :: cs) || occursIn pat cs

/-- The `Region` cleanup from `src/unnamed/part_000` line 305:
`.str.replace("excluding high income","").str.replace(")","").str.replace("(","")`
applied to one region name. -/
def regionClean (s : String) : String :=
  pyReplace (pyReplace (pyReplace s "excluding high income" "") ")" "") "(" ""

/-! Concrete fixtures.  The full server-side catalogs are not in the
repository; these are modelled from the notebook's recorded outputs. -/

/-- Modelled from the spec: a `FlatArray` indicators fixture shaped like the
`indicator?source=6` response; the server reports 569 indicators (cell 13)
while only one page is ever fetched.  Entry ids are synthetic. -/
def fx569 : Fixture :=
  ⟨.FlatArray,
   (List.range 569).map fun i =>
     Json.obj [("id", .str (toString i)), ("name", .str "indicator")]⟩

/-- The `DT.DOD.DLXF.CD` indicator entry, with the `sourceNote` recorded in
cell 17 of the Python part-1 notebook. -/
def dlxfEntry : Json :=
  Json.obj
    [("id", .str "DT.DOD.DLXF.CD"),
     ("name", .str "External debt stocks, long-term (DOD, current US$)"),
     ("sourceNote", .str "Long-term debt is debt that has an original or extended maturity of more than one year. It has three components: public, publicly guaranteed, and private nonguaranteed debt. Data are in current U.S. dollars.")]

/-- Modelled from the spec: the reference indicators fixture (source id 6),
holding the recorded `DT.DOD.DLXF.CD` entry among others. -/
def indicatorsFixture : Fixture :=
  ⟨.FlatArray,
   [Json.obj [("id", .str "DT.AMT.BLAT.CD"),
              ("name", .str "PPG, bilateral (AMT, current US$)"),
              ("sourceNote", .str "Amortization payments on bilateral debt.")],
    dlxfEntry,
    Json.obj [("id", .str "DT.DOD.DECT.CD"),
              ("name", .str "External debt stocks, total (DOD, current US$)"),
              ("sourceNote", .str "Total external debt stocks.")]]⟩

/-- One nested-schema location entry (`id`/`value` keys, cell 20). -/
def locEntry (code name : String) : Json :=
  Json.obj [("id", .str code), ("value", .str name)]

/-- Modelled from the spec: the debtor-locations fixture
(`sources/6/country`, `NestedVariable` shape), first entries as printed by
cell 20 of the Python part-1 notebook. -/
def dlocationsFixture : Fixture :=
  ⟨.NestedVariable,
   [locEntry "AFG" "Afghanistan", locEntry "AGO" "Angola",
    locEntry "ALB" "Albania", locEntry "ARG" "Argentina",
    locEntry "ARM" "Armenia", locEntry "AZE" "Azerbaijan",
    locEntry "BDI" "Burundi", locEntry "BEN" "Benin",
    locEntry "BFA" "Burkina Faso", locEntry "BGD" "Bangladesh"]⟩

/-- The request used for the indicators query of cell 15:
`indicator?format=json&source=6&per_page=500`. -/
def indicatorsRequest : CatalogRequest :=
  ⟨"http://api.worldbank.org/v2", some 6, 500, "indicator"⟩

/-- The request used for the debtor-locations query of cell 20:
`sources/6/country?per_page=300&format=JSON`. -/
def dlocationsRequest : CatalogRequest :=
  ⟨"http://api.worldbank.org/v2", none, 300, "sources/6/country"⟩

/-- The records extracted from `dlocationsFixture`. -/
def dlocRecords : List CatalogRecord :=
  [⟨"AFG", "Afghanistan", []⟩, ⟨"AGO", "Angola", []⟩,
   ⟨"ALB", "Albania", []⟩, ⟨"ARG", "Argentina", []⟩,
   ⟨"ARM", "Armenia", []⟩, ⟨"AZE", "Azerbaijan", []⟩,
   ⟨"BDI", "Burundi", []⟩, ⟨"BEN", "Benin", []⟩,
   ⟨"BFA", "Burkina Faso", []⟩, ⟨"BGD", "Bangladesh", []⟩]

/-- Whether a raw entry has key `k` bound to a string. -/
def hasStrField (e : Json) (k : String) : Bool :=
  match e.getField k with
  | some (.str _) => true
  | _ => false

/-- The `id` string of a raw entry, when present. -/
def entryId (e : Json) : Option String :=
  match e.getField "id" with
  | some (.str s) => some s
  | _ => none

/-- The `value` string of a raw entry, when present. -/
def entryValue (e : Json) : Option String :=
  match e.getField "value" with
  | some (.str s) => some s
  | _ => none

/-- The display-name string a `FlatArray` entry provides: `name`, else
`value` (the fallback order `parseEntryFlat` uses). -/
def entryName (e : Json) : Option String :=
  match e.getField "name" with
  | some (.str s) => some s
  | _ => entryValue e

/-- The keys a `ParseError` from `parseEntry` may name, per schema. -/
def requiredKey : Schema → String → Bool
  | .FlatArray, k => k == "id" || k == "name"
  | .NestedVariable, k => k == "id" || k == "value"

/-- Whether an entry is missing one of the keys `parseEntry` requires. -/
def missingRequired : Schema → Json → Bool
  | .FlatArray, e =>
      !hasStrField e "id" || (!hasStrField e "name" && !hasStrField e "value")
  | .NestedVariable, e =>
      !hasStrField e "id" || !hasStrField e "value"

/-- Whether the strings `parseEntry` would read from an entry are all
non-empty (vacuously true for fields it would fail on). -/
def rawNonEmpty : Schema → Json → Bool
  | .FlatArray, e =>
      (match entryId e with | some s => !s.isEmpty | none => true) &&
      (match entryName e with | some s => !s.isEmpty | none => true)
  | .NestedVariable, e =>
      (match entryId e with | some s => !s.isEmpty | none => true) &&
      (match entryValue e with | some s => !s.isEmpty | none => true)

/-- A valid request with the default page size 50 mentioned in cell 12
("The default number of results on each page is 50"). -/
def truncRequest : CatalogRequest :=
  ⟨"http://api.worldbank.org/v2", some 6, 50, "indicator"⟩

/-- A raw entry with no `id` key. -/
def noIdEntry : Json := Json.obj [("name", Json.str "x")]

/-- A flat-shaped envelope whose single record lacks `id`. -/
def noIdEnvelope : Json := Json.arr [Json.obj [], Json.arr [noIdEntry]]

/-- A fixture whose single entry carries an empty `id` string. -/
def emptyIdFixture : Fixture :=
  ⟨.FlatArray, [Json.obj [("id", Json.str ""), ("name", Json.str "x")]]⟩

/-- A fixture whose two entries share the `id` string "DUP". -/
def dupFixture : Fixture :=
  ⟨.FlatArray,
   [Json.obj [("id", Json.str "DUP"), ("name", Json.str "a")],
    Json.obj [("id", Json.str "DUP"), ("name", Json.str "b")]]⟩

/-- The record extracted from `dlxfEntry`. -/
def dlxfRecord : CatalogRecord :=
  ⟨"DT.DOD.DLXF.CD", "External debt stocks, long-term (DOD, current US$)",
   [("sourceNote", "Long-term debt is debt that has an original or extended maturity of more than one year. It has three components: public, publicly guaranteed, and private nonguaranteed debt. Data are in current U.S. dollars.")]⟩

/-- The records extracted from `indicatorsFixture`. -/
def indicatorsRecords : List CatalogRecord :=
  [⟨"DT.AMT.BLAT.CD", "PPG, bilateral (AMT, current US$)",
    [("sourceNote", "Amortization payments on bilateral debt.")]⟩,
   dlxfRecord,
   ⟨"DT.DOD.DECT.CD", "External debt stocks, total (DOD, current US$)",
    [("sourceNote", "Total external debt stocks.")]⟩]

/-! Lemmas about entry parsing. -/

theorem getStrField_ok {e : Json} {k : String} {s : String}
    (h : getStrField e k = .ok s) : e.getField k = some (.str s) := by
  unfold getStrField at h
  cases hg : e.getField k with
  | none => rw [hg] at h; cases h
  | some v =>
      rw [hg] at h
      cases v with
      | str t => cases h; rfl
      | num n => cases h
      | arr xs => cases h
      | obj kvs => cases h

theorem getStrField_error {e : Json} {k : String} {err : ParseError}
    (h : getStrField e k = .error err) :
    err.field = k ∧ hasStrField e k = false := by
  unfold getStrField at h
  unfold hasStrField
  cases hg : e.getField k with
  | none => rw [hg] at h; cases h; exact ⟨rfl, rfl⟩
  | some v =>
      rw [hg] at h
      cases v with
      | str t => cases h
      | num n => cases h; exact ⟨rfl, rfl⟩
      | arr xs => cases h; exact ⟨rfl, rfl⟩
      | obj kvs => cases h; exact ⟨rfl, rfl⟩

theorem getStrField_of_hasStr {e : Json} {k : String}
    (h : hasStrField e k = true) :
    ∃ s, e.getField k = some (.str s) ∧ getStrField e k = .ok s := by
  unfold hasStrField at h
  unfold getStrField
  cases hg : e.getField k with
  | none => rw [hg] at h; cases h
  | some v =>
      rw [hg] at h
      cases v with
      | str t => exact ⟨t, rfl, rfl⟩
      | num n => cases h
      | arr xs => cases h
      | obj kvs => cases h

theorem getStrField_of_not_hasStr {e : Json} {k : String}
    (h : hasStrField e k = false) : getStrField e k = .error ⟨k⟩ := by
  unfold hasStrField at h
  unfold getStrField
  cases hg : e.getField k with
  | none => rfl
  | some v =>
      rw [hg] at h
      cases v with
      | str t => cases h
      | num n => rfl
      | arr xs => rfl
      | obj kvs => rfl

theorem parseEntryFlat_ok {e : Json} {r : CatalogRecord}
    (h : parseEntryFlat e = .ok r) : e.getField "id" = some (.str r.code) := by
  unfold parseEntryFlat at h
  cases hid : getStrField e "id" with
  | error err => rw [hid] at h; cases h
  | ok code =>
      rw [hid] at h
      have hg := getStrField_ok hid
      cases hn : e.getField "name" with
      | some v =>
          rw [hn] at h
          cases v with
          | str t => cases h; exact hg
          | num n =>
              cases hv : e.getField "value" with
              | some w =>
                  rw [hv] at h
                  cases w with
                  | str t => cases h; exact hg
                  | num m => cases h
                  | arr xs => cases h
                  | obj kvs => cases h
              | none => rw [hv] at h; cases h
          | arr xs =>
              cases hv : e.getField "value" with
              | some w =>
                  rw [hv] at h
                  cases w with
                  | str t => cases h; exact hg
                  | num m => cases h
                  | arr ys => cases h
                  | obj kvs => cases h
              | none => rw [hv] at h; cases h
          | obj kvs =>
              cases hv : e.getField "value" with
              | some w =>
                  rw [hv] at h
                  cases w with
                  | str t => cases h; exact hg
                  | num m => cases h
                  | arr ys => cases h
                  | obj kvs2 => cases h
              | none => rw [hv] at h; cases h
      | none =>
          rw [hn] at h
          cases hv : e.getField "value" with
          | some w =>
              rw [hv] at h
              cases w with
              | str t => cases h; exact hg
              | num m => cases h
              | arr ys => cases h
              | obj kvs => cases h
          | none => rw [hv] at h; cases h

theorem parseEntryNested_ok {e : Json} {r : CatalogRecord}
    (h : parseEntryNested e = .ok r) :
    e.getField "id" = some (.str r.code) ∧
    e.getField "value" = some (.str r.name) := by
  unfold parseEntryNested at h
  cases hid : getStrField e "id" with
  | error err => rw [hid] at h; cases h
  | ok code =>
      rw [hid] at h
      have hg := getStrField_ok hid
      cases hv : e.getField "value" with
      | some v =>
          rw [hv] at h
          cases v with
          | str t => cases h; exact ⟨hg, rfl⟩
          | num m => cases h
          | arr ys => cases h
          | obj kvs => cases h
      | none => rw [hv] at h; cases h

theorem parseEntry_ok_id {sch : Schema} {e : Json} {r : CatalogRecord}
    (h : parseEntry sch e = .ok r) : entryId e = some r.code := by
  cases sch with
  | FlatArray =>
      have hg := parseEntryFlat_ok h
      unfold entryId; rw [hg]
  | NestedVariable =>
      have hg := (parseEntryNested_ok h).1
      unfold entryId; rw [hg]

theorem parseEntryNested_fields {e : Json} {r : CatalogRecord}
    (h : parseEntryNested e = .ok r) :
    entryId e = some r.code ∧ entryValue e = some r.name := by
  obtain ⟨h1, h2⟩ := parseEntryNested_ok h
  constructor
  · unfold entryId; rw [h1]
  · unfold entryValue; rw [h2]

theorem parseEntryFlat_fields {e : Json} {r : CatalogRecord}
    (h : parseEntryFlat e = .ok r) :
    entryId e = some r.code ∧ entryName e = some r.name := by
  refine ⟨parseEntry_ok_id (show parseEntry Schema.FlatArray e = .ok r from h),
    ?_⟩
  unfold parseEntryFlat at h
  cases hid : getStrField e "id" with
  | error err => rw [hid] at h; cases h
  | ok code =>
      rw [hid] at h
      unfold entryName entryValue
      cases hn : e.getField "name" with
      | some v =>
          rw [hn] at h
          cases v with
          | str t => cases h; rfl
          | num n =>
              cases hv : e.getField "value" with
              | some w =>
                  rw [hv] at h
                  cases w with
                  | str t => cases h; rfl
                  | num m => cases h
                  | arr xs => cases h
                  | obj kvs => cases h
              | none => rw [hv] at h; cases h
          | arr xs =>
              cases hv : e.getField "value" with
              | some w =>
                  rw [hv] at h
                  cases w with
                  | str t => cases h; rfl
                  | num m => cases h
                  | arr ys => cases h
                  | obj kvs => cases h
              | none => rw [hv] at h; cases h
          | obj kvs =>
              cases hv : e.getField "value" with
              | some w =>
                  rw [hv] at h
                  cases w with
                  | str t => cases h; rfl
                  | num m => cases h
                  | arr ys => cases h
                  | obj kvs2 => cases h
              | none => rw [hv] at h; cases h
      | none =>
          rw [hn] at h
          cases hv : e.getField "value" with
          | some w =>
              rw [hv] at h
              cases w with
              | str t => cases h; rfl
              | num m => cases h
              | arr ys => cases h
              | obj kvs => cases h
          | none => rw [hv] at h; cases h

theorem parseEntry_nonEmpty {sch : Schema} {e : Json} {r : CatalogRecord}
    (hp : parseEntry sch e = .ok r) (hne : rawNonEmpty sch e = true) :
    r.code ≠ "" ∧ r.name ≠ "" := by
  cases sch with
  | FlatArray =>
      obtain ⟨hid, hname⟩ := parseEntryFlat_fields hp
      simp only [rawNonEmpty] at hne
      rw [hid, hname] at hne
      rcases Bool.and_eq_true_iff.mp hne with ⟨h1, h2⟩
      constructor
      · intro hc; rw [hc] at h1; exact absurd h1 (by decide)
      · intro hc; rw [hc] at h2; exact absurd h2 (by decide)
  | NestedVariable =>
      obtain ⟨hid, hval⟩ := parseEntryNested_fields hp
      simp only [rawNonEmpty] at hne
      rw [hid, hval] at hne
      rcases Bool.and_eq_true_iff.mp hne with ⟨h1, h2⟩
      constructor
      · intro hc; rw [hc] at h1; exact absurd h1 (by decide)
      · intro hc; rw [hc] at h2; exact absurd h2 (by decide)

theorem parseEntryFlat_error {e : Json} {err : ParseError}
    (h : parseEntryFlat e = .error err) :
    requiredKey .FlatArray err.field = true ∧
    hasStrField e err.field = false := by
  unfold parseEntryFlat at h
  cases hid : getStrField e "id" with
  | error err2 =>
      rw [hid] at h
      cases h
      have he := getStrField_error hid
      rw [he.1]
      exact ⟨rfl, he.2⟩
  | ok code =>
      rw [hid] at h
      cases hn : e.getField "name" with
      | some v =>
          rw [hn] at h
          cases v with
          | str t => cases h
          | num n =>
              cases hv : e.getField "value" with
              | some w =>
                  rw [hv] at h
                  cases w with
                  | str t => cases h
                  | num m =>
                      cases h
                      refine ⟨rfl, ?_⟩
                      show hasStrField e "name" = false
                      unfold hasStrField; rw [hn]
                  | arr xs =>
                      cases h
                      refine ⟨rfl, ?_⟩
                      show hasStrField e "name" = false
                      unfold hasStrField; rw [hn]
                  | obj kvs =>
                      cases h
                      refine ⟨rfl, ?_⟩
                      show hasStrField e "name" = false
                      unfold hasStrField; rw [hn]
              | none =>
                  rw [hv] at h
                  cases h
                  refine ⟨rfl, ?_⟩
                  show hasStrField e "name" = false
                  unfold hasStrField; rw [hn]
          | arr xs =>
              cases hv : e.getField "value" with
              | some w =>
                  rw [hv] at h
                  cases w with
                  | str t => cases h
                  | num m =>
                      cases h
                      refine ⟨rfl, ?_⟩
                      show hasStrField e "name" = false
                      unfold hasStrField; rw [hn]
                  | arr ys =>
                      cases h
                      refine ⟨rfl, ?_⟩
                      show hasStrField e "name" = false
                      unfold hasStrField; rw [hn]
                  | obj kvs =>
                      cases h
                      refine ⟨rfl, ?_⟩
                      show hasStrField e "name" = false
                      unfold hasStrField; rw [hn]
              | none =>
                  rw [hv] at h
                  cases h
                  refine ⟨rfl, ?_⟩
                  show hasStrField e "name" = false
                  unfold hasStrField; rw [hn]
          | obj kvs =>
              cases hv : e.getField "value" with
              | some w =>
                  rw [hv] at h
                  cases w with
                  | str t => cases h
                  | num m =>
                      cases h
                      refine ⟨rfl, ?_⟩
                      show hasStrField e "name" = false
                      unfold hasStrField; rw [hn]
                  | arr ys =>
                      cases h
                      refine ⟨rfl, ?_⟩
                      show hasStrField e "name" = false
                      unfold hasStrField; rw [hn]
                  | obj kvs2 =>
                      cases h
                      refine ⟨rfl, ?_⟩
                      show hasStrField e "name" = false
                      unfold hasStrField; rw [hn]
              | none =>
                  rw [hv] at h
                  cases h
                  refine ⟨rfl, ?_⟩
                  show hasStrField e "name" = false
                  unfold hasStrField; rw [hn]
      | none =>
          rw [hn] at h
          cases hv : e.getField "value" with
          | some w =>
              rw [hv] at h
              cases w with
              | str t => cases h
              | num m =>
                  cases h
                  refine ⟨rfl, ?_⟩
                  show hasStrField e "name" = false
                  unfold hasStrField; rw [hn]
              | arr ys =>
                  cases h
                  refine ⟨rfl, ?_⟩
                  show hasStrField e "name" = false
                  unfold hasStrField; rw [hn]
              | obj kvs =>
                  cases h
                  refine ⟨rfl, ?_⟩
                  show hasStrField e "name" = false
                  unfold hasStrField; rw [hn]
          | none =>
              rw [hv] at h
              cases h
              refine ⟨rfl, ?_⟩
              show hasStrField e "name" = false
              unfold hasStrField; rw [hn]

theorem parseEntryNested_error {e : Json} {err : ParseError}
    (h : parseEntryNested e = .error err) :
    requiredKey .NestedVariable err.field = true ∧
    hasStrField e err.field = false := by
  unfold parseEntryNested at h
  cases hid : getStrField e "id" with
  | error err2 =>
      rw [hid] at h
      cases h
      have he := getStrField_error hid
      rw [he.1]
      exact ⟨rfl, he.2⟩
  | ok code =>
      rw [hid] at h
      cases hv : e.getField "value" with
      | some v =>
          rw [hv] at h
          cases v with
          | str t => cases h
          | num m =>
              cases h
              refine ⟨rfl, ?_⟩
              show hasStrField e "value" = false
              unfold hasStrField; rw [hv]
          | arr ys =>
              cases h
              refine ⟨rfl, ?_⟩
              show hasStrField e "value" = false
              unfold hasStrField; rw [hv]
          | obj kvs =>
              cases h
              refine ⟨rfl, ?_⟩
              show hasStrField e "value" = false
              unfold hasStrField; rw [hv]
      | none =>
          rw [hv] at h
          cases h
          refine ⟨rfl, ?_⟩
          show hasStrField e "value" = false
          unfold hasStrField; rw [hv]

theorem parseEntry_error_names {sch : Schema} {e : Json} {err : ParseError}
    (h : parseEntry sch e = .error err) :
    requiredKey sch err.field = true ∧ hasStrField e err.field = false := by
  cases sch with
  | FlatArray => exact parseEntryFlat_error h
  | NestedVariable => exact parseEntryNested_error h

theorem parseEntry_error_of_missing {sch : Schema} {e : Json}
    (h : missingRequired sch e = true) :
    ∃ err, parseEntry sch e = .error err := by
  cases sch with
  | FlatArray =>
      simp only [missingRequired, Bool.or_eq_true, Bool.and_eq_true,
        Bool.not_eq_true'] at h
      rcases h with h1 | ⟨hn, hv⟩
      · refine ⟨⟨"id"⟩, ?_⟩
        show parseEntryFlat e = .error ⟨"id"⟩
        unfold parseEntryFlat
        rw [getStrField_of_not_hasStr h1]
      · by_cases hid : hasStrField e "id" = true
        · obtain ⟨s, hgs, hok⟩ := getStrField_of_hasStr hid
          refine ⟨⟨"name"⟩, ?_⟩
          show parseEntryFlat e = .error ⟨"name"⟩
          unfold parseEntryFlat
          rw [hok]
          unfold hasStrField at hn hv
          cases hgn : e.getField "name" with
          | none =>
              cases hgv : e.getField "value" with
              | none => rfl
              | some w =>
                  rw [hgv] at hv
                  cases w with
                  | str t => cases hv
                  | num m => rfl
                  | arr ys => rfl
                  | obj kvs => rfl
          | some v =>
              rw [hgn] at hn
              cases v with
              | str t => cases hn
              | num m =>
                  cases hgv : e.getField "value" with
                  | none => rfl
                  | some w =>
                      rw [hgv] at hv
                      cases w with
                      | str t => cases hv
                      | num m2 => rfl
                      | arr ys => rfl
                      | obj kvs => rfl
              | arr ys =>
                  cases hgv : e.getField "value" with
                  | none => rfl
                  | some w =>
                      rw [hgv] at hv
                      cases w with
                      | str t => cases hv
                      | num m2 => rfl
                      | arr ys2 => rfl
                      | obj kvs => rfl
              | obj kvs =>
                  cases hgv : e.getField "value" with
                  | none => rfl
                  | some w =>
                      rw [hgv] at hv
                      cases w with
                      | str t => cases hv
                      | num m2 => rfl
                      | arr ys2 => rfl
                      | obj kvs2 => rfl
        · have h1 : hasStrField e "id" = false := by
            cases hx : hasStrField e "id" with
            | true => exact absurd hx hid
            | false => rfl
          refine ⟨⟨"id"⟩, ?_⟩
          show parseEntryFlat e = .error ⟨"id"⟩
          unfold parseEntryFlat
          rw [getStrField_of_not_hasStr h1]
  | NestedVariable =>
      simp only [missingRequired, Bool.or_eq_true, Bool.not_eq_true'] at h
      rcases h with h1 | hv
      · refine ⟨⟨"id"⟩, ?_⟩
        show parseEntryNested e = .error ⟨"id"⟩
        unfold parseEntryNested
        rw [getStrField_of_not_hasStr h1]
      · by_cases hid : hasStrField e "id" = true
        · obtain ⟨s, hgs, hok⟩ := getStrField_of_hasStr hid
          refine ⟨⟨"value"⟩, ?_⟩
          show parseEntryNested e = .error ⟨"value"⟩
          unfold parseEntryNested
          rw [hok]
          unfold hasStrField at hv
          cases hgv : e.getField "value" with
          | none => rfl
          | some w =>
              rw [hgv] at hv
              cases w with
              | str t => cases hv
              | num m => rfl
              | arr ys => rfl
              | obj kvs => rfl
        · have h1 : hasStrField e "id" = false := by
            cases hx : hasStrField e "id" with
            | true => exact absurd hx hid
            | false => rfl
          refine ⟨⟨"id"⟩, ?_⟩
          show parseEntryNested e = .error ⟨"id"⟩
          unfold parseEntryNested
          rw [getStrField_of_not_hasStr h1]

/-! Lemmas about `mapParse`. -/

theorem mapParse_ok {p : Json → Except ParseError CatalogRecord} :
    ∀ {es : List Json} {rs : List CatalogRecord}, mapParse p es = .ok rs →
      rs.length = es.length ∧
      ∀ i (he : i < es.length) (hr : i < rs.length),
        p (es.get ⟨i, he⟩) = .ok (rs.get ⟨i, hr⟩) := by
  intro es
  induction es with
  | nil =>
      intro rs h
      cases h
      exact ⟨rfl, fun i he _ => absurd he (Nat.not_lt_zero i)⟩
  | cons e es ih =>
      intro rs h
      unfold mapParse at h
      cases hp : p e with
      | error err => rw [hp] at h; cases h
      | ok r =>
          rw [hp] at h
          cases hm : mapParse p es with
          | error err => rw [hm] at h; cases h
          | ok rs2 =>
              rw [hm] at h
              cases h
              obtain ⟨hlen, hpt⟩ := ih hm
              refine ⟨by simp [hlen], ?_⟩
              intro i he hr
              cases i with
              | zero => exact hp
              | succ j =>
                  exact hpt j (Nat.lt_of_succ_lt_succ he)
                    (Nat.lt_of_succ_lt_succ hr)

theorem mapParse_ok_mem {p : Json → Except ParseError CatalogRecord} :
    ∀ {es : List Json} {rs : List CatalogRecord}, mapParse p es = .ok rs →
      ∀ r ∈ rs, ∃ e ∈ es, p e = .ok r := by
  intro es
  induction es with
  | nil =>
      intro rs h r hr
      cases h
      cases hr
  | cons e es ih =>
      intro rs h r hr
      unfold mapParse at h
      cases hp : p e with
      | error err => rw [hp] at h; cases h
      | ok r0 =>
          rw [hp] at h
          cases hm : mapParse p es with
          | error err => rw [hm] at h; cases h
          | ok rs2 =>
              rw [hm] at h
              cases h
              rcases List.mem_cons.mp hr with h1 | h1
              · exact ⟨e, List.mem_cons_self e es, h1 ▸ hp⟩
              · obtain ⟨e2, he2, hpe2⟩ := ih hm r h1
                exact ⟨e2, List.mem_cons_of_mem e he2, hpe2⟩

theorem mapParse_ids {sch : Schema} :
    ∀ {es : List Json} {rs : List CatalogRecord},
      mapParse (parseEntry sch) es = .ok rs →
      es.map entryId = rs.map fun r => some r.code := by
  intro es
  induction es with
  | nil => intro rs h; cases h; rfl
  | cons e es ih =>
      intro rs h
      unfold mapParse at h
      cases hp : parseEntry sch e with
      | error err => rw [hp] at h; cases h
      | ok r0 =>
          rw [hp] at h
          cases hm : mapParse (parseEntry sch) es with
          | error err => rw [hm] at h; cases h
          | ok rs2 =>
              rw [hm] at h
              cases h
              simp only [List.map_cons]
              rw [parseEntry_ok_id hp, ih hm]

theorem mapParse_error_exists
    {p : Json → Except ParseError CatalogRecord} :
    ∀ {es : List Json}, (∃ e ∈ es, ∃ err, p e = .error err) →
      ∃ err, mapParse p es = .error err ∧ ∃ e ∈ es, p e = .error err := by
  intro es
  induction es with
  | nil => rintro ⟨e, he, _⟩; cases he
  | cons e es ih =>
      rintro ⟨e0, he0, err0, herr0⟩
      cases hp : p e with
      | error err =>
          refine ⟨err, ?_, e, List.mem_cons_self e es, hp⟩
          unfold mapParse; rw [hp]
      | ok r =>
          rcases List.mem_cons.mp he0 with h1 | h1
          · rw [h1] at herr0; rw [herr0] at hp; cases hp
          · obtain ⟨err, hm, e2, he2, hpe2⟩ := ih ⟨e0, h1, err0, herr0⟩
            refine ⟨err, ?_, e2, List.mem_cons_of_mem e he2, hpe2⟩
            unfold mapParse; rw [hp, hm]

/-! Lemmas about the served envelope and the fetch operations. -/

theorem entriesOf_serve (fx : Fixture) (n : Nat) :
    entriesOf (servePage fx n) fx.schema = .ok (fx.entries.take n) := by
  obtain ⟨sch, es⟩ := fx
  cases sch <;> rfl

theorem readTotal_serve (fx : Fixture) (n : Nat) :
    readTotal (servePage fx n) = .ok (fx.entries.length : Int) := by
  obtain ⟨sch, es⟩ := fx
  cases sch <;> rfl

theorem fetchTotalCount_eq (fx : Fixture) :
    fetchTotalCount fx = .ok (fx.entries.length : Int) :=
  readTotal_serve fx 1

theorem fetchAll_eq (req : CatalogRequest) (fx : Fixture) :
    fetchAll req fx =
      match mapParse (parseEntry fx.schema) (fx.entries.take req.perPage) with
      | .error err => .error err
      | .ok rs => .ok ⟨rs, (fx.entries.length : Int)⟩ := by
  unfold fetchAll extractRecords
  rw [readTotal_serve fx req.perPage, entriesOf_serve fx req.perPage]

theorem fetchAll_ok {req : CatalogRequest} {fx : Fixture}
    {res : CatalogResult} (h : fetchAll req fx = .ok res) :
    mapParse (parseEntry fx.schema) (fx.entries.take req.perPage)
        = .ok res.records ∧
    res.total = (fx.entries.length : Int) := by
  rw [fetchAll_eq req fx] at h
  cases hm : mapParse (parseEntry fx.schema) (fx.entries.take req.perPage) with
  | error err => rw [hm] at h; cases h
  | ok rs => rw [hm] at h; cases h; exact ⟨rfl, rfl⟩

/-! Lemmas about `lookup` and `findMetadata`. -/

theorem find?_prop {α : Type _} {p : α → Bool} {l : List α} {a : α}
    (h : l.find? p = some a) : p a = true :=
  List.find?_some h

theorem find?_first_match :
    ∀ (rs : List CatalogRecord) (code : String) (i : Nat) (hi : i < rs.length),
      (rs.get ⟨i, hi⟩).code = code →
      (∀ j (hj : j < rs.length), j < i → (rs.get ⟨j, hj⟩).code ≠ code) →
      rs.find? (fun r => r.code == code) = some (rs.get ⟨i, hi⟩) := by
  intro rs
  induction rs with
  | nil => intro code i hi; cases hi
  | cons r rest ih =>
      intro code i hi hcode hbefore
      cases i with
      | zero =>
          have hb : ((fun x : CatalogRecord => x.code == code) r) = true :=
            beq_iff_eq.mpr hcode
          rw [List.find?_cons_of_pos rest hb]
          rfl
      | succ k =>
          have hr : r.code ≠ code :=
            hbefore 0 (Nat.succ_pos rest.length) (Nat.succ_pos k)
          have hb : ¬ ((fun x : CatalogRecord => x.code == code) r) = true := by
            intro hx
            exact hr (beq_iff_eq.mp hx)
          rw [List.find?_cons_of_neg rest hb]
          exact ih code k (Nat.lt_of_succ_lt_succ hi) hcode
            fun j hj hjk =>
              hbefore (j + 1) (Nat.succ_lt_succ hj) (Nat.succ_lt_succ hjk)

theorem findMetadataIn_eq (rs : List CatalogRecord) (code field : String) :
    findMetadataIn rs code field =
      (rs.find? fun r => r.code == code).bind
        fun r => r.extra.lookup field := by
  induction rs with
  | nil => rfl
  | cons r rest ih =>
      unfold findMetadataIn
      by_cases h : r.code = code
      · have hb : ((fun x : CatalogRecord => x.code == code) r) = true :=
          beq_iff_eq.mpr h
        rw [if_pos h, List.find?_cons_of_pos rest hb]
        rfl
      · have hb : ¬ ((fun x : CatalogRecord => x.code == code) r) = true := by
          intro hx
          exact h (beq_iff_eq.mp hx)
        rw [if_neg h, List.find?_cons_of_neg rest hb]
        exact ih

/-! Lemmas about `replaceGo` (the `str.replace` model). -/

theorem replaceGo_single_char (c : Char) :
    ∀ (fuel : Nat) (s : List Char), s.length ≤ fuel →
      replaceGo [c] [] fuel s = s.filter fun x => x != c := by
  intro fuel
  induction fuel with
  | zero =>
      intro s hs
      cases s with
      | nil => rfl
      | cons a s => cases hs
  | succ fuel ih =>
      intro s hs
      cases s with
      | nil => rfl
      | cons a s =>
          by_cases h : c = a
          · subst h
            have hb : beginsWith [c] (c :: s) = true := by
              simp [beginsWith]
            unfold replaceGo
            rw [if_pos hb]
            have hrec := ih s (Nat.le_of_succ_le_succ hs)
            simp [List.filter_cons, hrec]
          · have hb : beginsWith [c] (a :: s) = false := by
              simp [beginsWith]
              exact h
            unfold replaceGo
            rw [if_neg (by simp [hb])]
            have hrec := ih s (Nat.le_of_succ_le_succ hs)
            have hne : (a != c) = true := by
              simp [bne_iff_ne]
              exact fun hx => h hx.symm
            simp [List.filter_cons, hne, hrec]

theorem replaceGo_no_occurrence (pat rep : List Char) :
    ∀ (fuel : Nat) (s : List Char), occursIn pat s = false →
      replaceGo pat rep fuel s = s := by
  intro fuel
  induction fuel with
  | zero =>
      intro s hs
      cases s with
      | nil => rfl
      | cons a s => rfl
  | succ fuel ih =>
      intro s hs
      cases s with
      | nil => rfl
      | cons a s =>
          unfold occursIn at hs
          rcases Bool.or_eq_false_iff.mp hs with ⟨h1, h2⟩
          unfold replaceGo
          rw [if_neg (by simp [h1])]
          rw [ih s h2]

/-! Lemmas about `roundHalfEven` (the Python 3 `round` model). -/

theorem roundHalfEven_close (q : ℚ) :
    |(roundHalfEven q : ℚ) - q| ≤ 1/2 := by
  unfold roundHalfEven
  have h0 : ((⌊q⌋ : ℤ) : ℚ) ≤ q := Int.floor_le q
  have h1 : q < (⌊q⌋ : ℚ) + 1 := Int.lt_floor_add_one q
  split_ifs with ha hb hc
  · rw [abs_sub_comm, abs_of_nonneg (by linarith)]
    linarith
  · rw [abs_of_nonneg (by push_cast; linarith)]
    push_cast
    linarith
  · rw [abs_sub_comm, abs_of_nonneg (by linarith)]
    linarith
  · rw [abs_of_nonneg (by push_cast; linarith)]
    push_cast
    linarith

theorem roundHalfEven_tie_even (q : ℚ)
    (h : |(roundHalfEven q : ℚ) - q| = 1/2) : roundHalfEven q % 2 = 0 := by
  have h0 : ((⌊q⌋ : ℤ) : ℚ) ≤ q := Int.floor_le q
  have h1 : q < (⌊q⌋ : ℚ) + 1 := Int.lt_floor_add_one q
  unfold roundHalfEven at h ⊢
  split_ifs at h ⊢ with ha hb hc
  · rw [abs_sub_comm, abs_of_nonneg (by linarith)] at h
    linarith
  · rw [abs_of_nonneg (by push_cast; linarith)] at h
    push_cast at h
    linarith
  · exact hc
  · rcases Int.emod_two_eq_zero_or_one ⌊q⌋ with he | he
    · exact absurd he hc
    · omega

theorem occursIn_single_of_not_mem {c : Char} :
    ∀ {s : List Char}, c ∉ s → occursIn [c] s = false := by
  intro s
  induction s with
  | nil => intro _; rfl
  | cons a s ih =>
      intro h
      unfold occursIn
      have h1 : c ≠ a := fun hx => h (hx ▸ List.mem_cons_self a s)
      have h2 : c ∉ s := fun hx => h (List.mem_cons_of_mem a hx)
      rw [ih h2]
      unfold beginsWith
      simp [beginsWith]
      exact h1

/-! Claim theorems. -/

/-- C1: silent truncation policy — whenever the server-side catalog holds
more entries than `perPage`, `fetchAll` returns exactly `perPage` records
from the single page it fetches (never looping over further pages) and
reports no incompleteness, while `fetchTotalCount` on the same fixture
returns the full server total. -/
theorem c1_silent_truncation (req : CatalogRequest) (fx : Fixture)
    (hp : (mapParse (parseEntry fx.schema)
        (fx.entries.take req.perPage)).isOk = true)
    (ht : req.perPage < fx.entries.length) :
    (∃ rs, fetchAll req fx = .ok ⟨rs, (fx.entries.length : Int)⟩ ∧
       rs.length = req.perPage) ∧
    fetchTotalCount fx = .ok (fx.entries.length : Int) := by
  refine ⟨?_, fetchTotalCount_eq _⟩
  cases hm : mapParse (parseEntry fx.schema) (fx.entries.take req.perPage) with
  | error err => rw [hm] at hp; cases hp
  | ok rs =>
      refine ⟨rs, ?_, ?_⟩
      · rw [fetchAll_eq req fx]
        show (match mapParse (parseEntry fx.schema)
            (fx.entries.take req.perPage) with
          | .error err => (.error err : Except ParseError CatalogResult)
          | .ok rs => .ok ⟨rs, (fx.entries.length : Int)⟩) = _
        rw [hm]
      · have hlen := (mapParse_ok hm).1
        rw [hlen, List.length_take]
        exact Nat.min_eq_left (Nat.le_of_lt ht)

set_option maxRecDepth 100000 in
/-- C1 witness: on a fixture reporting `total = 569` with `perPage = 50`,
`fetchAll` returns exactly 50 records and `fetchTotalCount` returns 569. -/
theorem c1_silent_truncation_witness :
    (∃ rs, fetchAll truncRequest fx569 = .ok ⟨rs, 569⟩ ∧ rs.length = 50) ∧
    fetchTotalCount fx569 = .ok 569 :=
  c1_silent_truncation truncRequest fx569 (by decide) (by decide)

/-- C2: `extractRecords` dispatches on the schema tag — a nested-shaped
(object) envelope under `FlatArray`, or a flat-shaped (array) envelope
under `NestedVariable`, yields a `ParseError`; and when an entry of a
well-located entry list lacks a required key, the result is a `ParseError`
naming a required field that is missing from that entry, with no partial
record sequence (the error is the entire result). -/
theorem c2_schema_dispatch :
    (∀ kvs, extractRecords (Json.obj kvs) Schema.FlatArray
        = .error ⟨"records"⟩) ∧
    (∀ xs, extractRecords (Json.arr xs) Schema.NestedVariable
        = .error ⟨"source"⟩) ∧
    (∀ env sch es, entriesOf env sch = .ok es →
       (∃ e ∈ es, missingRequired sch e = true) →
       ∃ err, extractRecords env sch = .error err ∧
         requiredKey sch err.field = true ∧
         ∃ e ∈ es, parseEntry sch e = .error err ∧
           hasStrField e err.field = false) := by
  refine ⟨fun kvs => rfl, fun xs => rfl, ?_⟩
  intro env sch es hok ⟨e, he, hmiss⟩
  obtain ⟨err0, herr0⟩ := parseEntry_error_of_missing hmiss
  obtain ⟨err, hmap, e2, he2, hpe2⟩ :=
    mapParse_error_exists ⟨e, he, err0, herr0⟩
  obtain ⟨hkey, hstr⟩ := parseEntry_error_names hpe2
  refine ⟨err, ?_, hkey, e2, he2, hpe2, hstr⟩
  unfold extractRecords
  rw [hok]
  exact hmap

/-- C2 witness: concrete instances of all three dispatch facts. -/
theorem c2_schema_dispatch_witness :
    extractRecords (Json.obj [("source", Json.arr [])]) Schema.FlatArray
        = .error ⟨"records"⟩ ∧
    extractRecords (Json.arr []) Schema.NestedVariable = .error ⟨"source"⟩ ∧
    ∃ err, extractRecords noIdEnvelope Schema.FlatArray = .error err ∧
      requiredKey Schema.FlatArray err.field = true ∧
      ∃ e ∈ [noIdEntry], parseEntry Schema.FlatArray e = .error err ∧
        hasStrField e err.field = false :=
  ⟨c2_schema_dispatch.1 _, c2_schema_dispatch.2.1 _,
   c2_schema_dispatch.2.2 noIdEnvelope Schema.FlatArray [noIdEntry] rfl
     ⟨noIdEntry, List.mem_singleton_self _, by decide⟩⟩

/-- C3: `lookup` is a linear scan by exact case-sensitive code equality:
it returns `none` (the `NotFound` variant, an ordinary result) exactly when
no record matches, any returned record is a member with the looked-up code,
the unique match is returned when exactly one exists, and with several
matches the first in sequence order wins. -/
theorem c3_lookup_scan :
    (∀ res code, (∀ r ∈ res.records, r.code ≠ code) →
       lookup res code = none) ∧
    (∀ res code r, lookup res code = some r →
       r ∈ res.records ∧ r.code = code) ∧
    (∀ res code r, r ∈ res.records → r.code = code →
       (∀ r2 ∈ res.records, r2.code = code → r2 = r) →
       lookup res code = some r) ∧
    (∀ res code i (hi : i < res.records.length),
       (res.records.get ⟨i, hi⟩).code = code →
       (∀ j (hj : j < res.records.length), j < i →
          (res.records.get ⟨j, hj⟩).code ≠ code) →
       lookup res code = some (res.records.get ⟨i, hi⟩)) := by
  refine ⟨?_, ?_, ?_, ?_⟩
  · intro res code h
    unfold lookup
    refine List.find?_eq_none.mpr ?_
    intro r hr hx
    exact h r hr (beq_iff_eq.mp hx)
  · intro res code r h
    unfold lookup at h
    have hp := find?_prop h
    exact ⟨List.mem_of_find?_eq_some h, beq_iff_eq.mp hp⟩
  · intro res code r hmem hcode huniq
    cases hfind : lookup res code with
    | none =>
        unfold lookup at hfind
        have := List.find?_eq_none.mp hfind r hmem
        exact absurd (beq_iff_eq.mpr hcode) this
    | some r2 =>
        unfold lookup at hfind
        have hmem2 := List.mem_of_find?_eq_some hfind
        have hp2 := find?_prop hfind
        have hcode2 := beq_iff_eq.mp hp2
        rw [huniq r2 hmem2 hcode2]
  · intro res code i hi hcode hbefore
    exact find?_first_match res.records code i hi hcode hbefore

set_option maxRecDepth 100000 in
/-- C3 witness: the unique `DT.DOD.DLXF.CD` record is found in the
reference indicators result. -/
theorem c3_lookup_scan_witness :
    lookup ⟨indicatorsRecords, 569⟩ "DT.DOD.DLXF.CD" = some dlxfRecord :=
  c3_lookup_scan.2.2.1 ⟨indicatorsRecords, 569⟩ "DT.DOD.DLXF.CD" dlxfRecord
    (by decide) (by decide) (by decide)

/-- C4: `findMetadata` equals `lookup` followed by extraction of the field
from the found record's `extra` mapping, propagating `NotFound`; and on the
reference indicators fixture, the `sourceNote` for `DT.DOD.DLXF.CD` begins
with the recorded long-term-debt definition. -/
theorem c4_findMetadata_composition :
    (∀ res code field, findMetadata res code field =
       (lookup res code).bind fun r => r.extra.lookup field) ∧
    (∃ res, fetchAll indicatorsRequest indicatorsFixture = .ok res ∧
       ∃ rest, findMetadata res "DT.DOD.DLXF.CD" "sourceNote" =
         some ("Long-term debt is debt that has an original or extended maturity of more than one year." ++ rest)) := by
  constructor
  · intro res code field
    exact findMetadataIn_eq res.records code field
  · refine ⟨⟨indicatorsRecords, 3⟩, rfl,
      " It has three components: public, publicly guaranteed, and private nonguaranteed debt. Data are in current U.S. dollars.", ?_⟩
    rfl

/-- C5 counterexample: the extraction performs no emptiness validation, so
a valid request against a fixture whose entry has an empty `id` yields a
record with empty `code`. -/
theorem c5_counterexample_empty_code :
    truncRequest.valid ∧
    fetchAll truncRequest emptyIdFixture = .ok ⟨[⟨"", "x", []⟩], 1⟩ ∧
    (⟨"", "x", []⟩ : CatalogRecord) ∈
      (⟨[⟨"", "x", []⟩], 1⟩ : CatalogResult).records ∧
    (⟨"", "x", []⟩ : CatalogRecord).code = "" :=
  ⟨by decide, rfl, by decide, rfl⟩

/-- C5 amended: for every valid request, the records of a successful
`fetchAll` all have non-empty `code` and `name` provided every raw entry of
the served page carries non-empty id and name/value strings — the fetcher
copies the strings verbatim and performs no validation of its own. -/
theorem c5_nonempty_fields (req : CatalogRequest) (fx : Fixture)
    (res : CatalogResult) (hv : req.valid) (h : fetchAll req fx = .ok res)
    (hne : ∀ e ∈ fx.entries.take req.perPage, rawNonEmpty fx.schema e = true) :
    ∀ r ∈ res.records, r.code ≠ "" ∧ r.name ≠ "" := by
  intro r hr
  obtain ⟨hm, _⟩ := fetchAll_ok h
  obtain ⟨e, he, hpe⟩ := mapParse_ok_mem hm r hr
  exact parseEntry_nonEmpty hpe (hne e he)

set_option maxRecDepth 10000 in
/-- C5 witness: the amended statement at the debtor-locations fixture,
instantiated at the first record. -/
theorem c5_nonempty_fields_witness :
    ("AFG" : String) ≠ "" ∧ ("Afghanistan" : String) ≠ "" :=
  c5_nonempty_fields dlocationsRequest dlocationsFixture ⟨dlocRecords, 10⟩
    (by decide) rfl (by decide) ⟨"AFG", "Afghanistan", []⟩ (by decide)

/-- C6 counterexample: `fetchAll` performs no deduplication, so a fixture
with two entries sharing an `id` yields a result whose codes are not
pairwise distinct. -/
theorem c6_counterexample_duplicate_codes :
    truncRequest.valid ∧
    fetchAll truncRequest dupFixture
      = .ok ⟨[⟨"DUP", "a", []⟩, ⟨"DUP", "b", []⟩], 2⟩ ∧
    ¬ ((⟨[⟨"DUP", "a", []⟩, ⟨"DUP", "b", []⟩], 2⟩ : CatalogResult).records.map
        fun r => r.code).Nodup :=
  ⟨by decide, rfl, by decide⟩

/-- C6 amended: codes in a `fetchAll` result are pairwise distinct exactly
when the served page's raw `id` fields are; uniqueness is a data-quality
assumption about the catalog, not something the fetcher enforces. -/
theorem c6_codes_nodup (req : CatalogRequest) (fx : Fixture)
    (res : CatalogResult) (h : fetchAll req fx = .ok res) :
    (res.records.map fun r => r.code).Nodup ↔
      ((fx.entries.take req.perPage).map entryId).Nodup := by
  obtain ⟨hm, _⟩ := fetchAll_ok h
  rw [mapParse_ids hm]
  have hmm : (res.records.map fun r => some r.code)
      = (res.records.map fun r => r.code).map some := by
    rw [List.map_map]; rfl
  rw [hmm]
  constructor
  · intro hn
    exact hn.map (Option.some_injective _)
  · intro hn
    exact List.Nodup.of_map some hn

set_option maxRecDepth 10000 in
/-- C6 witness: the amended statement at the debtor-locations fixture,
in the ids-to-codes direction. -/
theorem c6_codes_nodup_witness :
    (["AFG", "AGO", "ALB", "ARG", "ARM", "AZE",
      "BDI", "BEN", "BFA", "BGD"] : List String).Nodup :=
  (c6_codes_nodup dlocationsRequest dlocationsFixture ⟨dlocRecords, 10⟩
    rfl).mpr (by decide)

/-- C7: `fetchAll` is deterministic — two calls with the same request
against the same fixture data return results with identical record
sequences, element for element and in order. -/
theorem c7_fetchAll_deterministic (req : CatalogRequest) (fx : Fixture)
    (r1 r2 : CatalogResult) (h1 : fetchAll req fx = .ok r1)
    (h2 : fetchAll req fx = .ok r2) : r1.records = r2.records := by
  rw [h1] at h2
  cases h2
  rfl

set_option maxRecDepth 10000 in
/-- C7 witness: two identical debtor-locations fetches agree. -/
theorem c7_fetchAll_deterministic_witness :
    (⟨dlocRecords, 10⟩ : CatalogResult).records
      = (⟨dlocRecords, 10⟩ : CatalogResult).records :=
  c7_fetchAll_deterministic dlocationsRequest dlocationsFixture
    ⟨dlocRecords, 10⟩ ⟨dlocRecords, 10⟩ rfl rfl

/-- C8: extraction preserves length and order — a successful
`extractRecords` yields one record per raw entry, in order, the i-th code
being the i-th entry's `id` (and, under `NestedVariable`, the i-th name the
i-th entry's `value`); on the debtor-locations fixture the first record is
`AFG -> Afghanistan`. -/
theorem c8_extraction_preserves_order :
    (∀ env sch es rs, entriesOf env sch = .ok es →
       extractRecords env sch = .ok rs →
       rs.length = es.length ∧
       ∀ i (he : i < es.length) (hr : i < rs.length),
         entryId (es.get ⟨i, he⟩) = some ((rs.get ⟨i, hr⟩).code) ∧
         (sch = .NestedVariable →
            entryValue (es.get ⟨i, he⟩) = some ((rs.get ⟨i, hr⟩).name))) ∧
    (∃ res, fetchAll dlocationsRequest dlocationsFixture = .ok res ∧
       res.records.head? = some ⟨"AFG", "Afghanistan", []⟩) := by
  constructor
  · intro env sch es rs hok hex
    unfold extractRecords at hex
    rw [hok] at hex
    obtain ⟨hlen, hpt⟩ := mapParse_ok hex
    refine ⟨hlen, ?_⟩
    intro i he hr
    have hp := hpt i he hr
    refine ⟨parseEntry_ok_id hp, ?_⟩
    intro hsch
    cases hsch
    exact (parseEntryNested_fields hp).2
  · exact ⟨⟨dlocRecords, 10⟩, rfl, rfl⟩

set_option maxRecDepth 10000 in
/-- C8 witness: the pointwise facts at the debtor-locations envelope. -/
theorem c8_extraction_preserves_order_witness :
    dlocRecords.length = dlocationsFixture.entries.length ∧
    entryId (dlocationsFixture.entries.get ⟨0, by decide⟩)
      = some ((dlocRecords.get ⟨0, by decide⟩).code) := by
  have h := c8_extraction_preserves_order.1
    (servePage dlocationsFixture 300) Schema.NestedVariable
    dlocationsFixture.entries dlocRecords rfl rfl
  exact ⟨h.1, (h.2 0 (by decide) (by decide)).1⟩

/-- C9: `formatNum x` is Python 3 `round(x / 1000000000)` over exact
rationals — the nearest integer to `x / 1e9`, with ties resolved to the
even integer: 1 500 000 000 maps to 2 while 500 000 000 maps to 0. -/
theorem c9_formatNum_round :
    formatNum 1500000000 = 2 ∧ formatNum 500000000 = 0 ∧
    (∀ x : ℚ, |(formatNum x : ℚ) - x / 1000000000| ≤ 1/2) ∧
    (∀ x : ℚ, |(formatNum x : ℚ) - x / 1000000000| = 1/2 →
       formatNum x % 2 = 0) := by
  refine ⟨?_, ?_, fun x => roundHalfEven_close _,
    fun x h => roundHalfEven_tie_even _ h⟩
  · have h1 : ((1500000000 : ℚ) / 1000000000) = 3/2 := by norm_num
    unfold formatNum roundHalfEven
    rw [h1]
    have hf : ⌊(3/2 : ℚ)⌋ = 1 := by norm_num [Int.floor_eq_iff]
    rw [hf]
    norm_num
  · have h1 : ((500000000 : ℚ) / 1000000000) = 1/2 := by norm_num
    unfold formatNum roundHalfEven
    rw [h1]
    have hf : ⌊(1/2 : ℚ)⌋ = 0 := by norm_num [Int.floor_eq_iff]
    rw [hf]
    norm_num

/-- C9 witness: the tie case at 1 500 000 000 resolves to an even
integer. -/
theorem c9_formatNum_round_witness : formatNum 1500000000 % 2 = 0 :=
  c9_formatNum_round.2.2.2 1500000000
    (by rw [c9_formatNum_round.1]; norm_num)

/-- C10: the region-name cleanup removes the substring
"excluding high income" and every parenthesis character wherever it occurs
— the cleaned name has no parenthesis; it equals the substring-removed name
with all parenthesis characters filtered out (parenthesized text keeps its
content); names with no parenthesis and no such substring are unchanged;
and it strips parentheses even away from the literal suffix. -/
theorem c10_region_cleanup :
    (∀ s : String,
       '(' ∉ (regionClean s).data ∧ ')' ∉ (regionClean s).data) ∧
    (∀ s : String, (regionClean s).data =
       (pyReplace s "excluding high income" "").data.filter
         fun c => c != '(' && c != ')') ∧
    (∀ s : String, occursIn "excluding high income".data s.data = false →
       '(' ∉ s.data → ')' ∉ s.data → regionClean s = s) ∧
    regionClean "East Asia & Pacific (excluding high income)"
      = "East Asia & Pacific " ∧
    regionClean "(East) Asia" = "East Asia" := by
  have hstep : ∀ (t : String) (c : Char),
      (pyReplace t ⟨[c]⟩ "").data = t.data.filter fun x => x != c := by
    intro t c
    show replaceGo [c] [] t.data.length t.data = _
    exact replaceGo_single_char c t.data.length t.data (le_refl _)
  have hchar : ∀ s : String, (regionClean s).data =
      (pyReplace s "excluding high income" "").data.filter
        fun c => c != '(' && c != ')' := by
    intro s
    have h1 : (regionClean s).data =
        ((pyReplace (pyReplace s "excluding high income" "") ")" "").data).filter
          fun x => x != '(' := hstep _ '('
    have h2 : (pyReplace (pyReplace s "excluding high income" "") ")" "").data =
        ((pyReplace s "excluding high income" "").data).filter
          fun x => x != ')' := hstep _ ')'
    rw [h1, h2, List.filter_filter]
  refine ⟨?_, hchar, ?_, by decide, by decide⟩
  · intro s
    constructor
    · intro hmem
      rw [hchar s] at hmem
      have := (List.mem_filter.mp hmem).2
      simp at this
    · intro hmem
      rw [hchar s] at hmem
      have := (List.mem_filter.mp hmem).2
      simp at this
  · intro s hsub hop hcl
    have hrm : ∀ (t : String) (c : Char), c ∉ t.data →
        pyReplace t ⟨[c]⟩ "" = t := by
      intro t c hc
      show String.mk (replaceGo [c] [] t.data.length t.data) = t
      rw [replaceGo_no_occurrence [c] [] t.data.length t.data
        (occursIn_single_of_not_mem hc)]
    have hb : pyReplace s "excluding high income" "" = s := by
      show String.mk (replaceGo "excluding high income".data []
        s.data.length s.data) = s
      rw [replaceGo_no_occurrence _ _ _ _ hsub]
    unfold regionClean
    rw [hb, hrm s ')' hcl, hrm s '(' hop]

/-- C10 witness: a name with no parenthesis and no
"excluding high income" substring is returned unchanged. -/
theorem c10_region_cleanup_witness :
    regionClean "South Asia" = "South Asia" :=
  c10_region_cleanup.2.2.1 "South Asia" (by decide) (by decide) (by decide)

end DebtData
